import Mathlib

/-!
Verification development for the HRPowerSuite attendance-management
application. Shallow embeddings of the arithmetic helpers of the
attendance service worker, the midnight attendance scheduler, the
authentication layer, the user-facing routes and the periodic cleanup
service, together with theorems settling the specification claims.

Rational arithmetic from the worker helpers is modelled with `ℚ`; the
library marks the `Rat` field operations irreducible, which we undo so
that concrete instances of the theorems can be checked by `decide`.
-/

set_option allowUnsafeReducibility true

attribute [semireducible] Rat.add Rat.sub Rat.mul Rat.inv Rat.div Rat.neg

namespace HR

/-! ## Attendance service worker helpers

Embeds `calculateWorkHours`, `calculateOvertime` and `determineStatus`
from the background service worker. Timestamps are modelled as integer
milliseconds since the epoch; an absent (`null`/`undefined`) check-in or
check-out is `none`. JavaScript `Math.round x` is `⌊x + 1/2⌋`.
-/

/-- JavaScript `Math.round`: round half towards positive infinity. -/
def jsRound (q : ℚ) : ℤ := Rat.floor (q + 1/2)

/-- `calculateWorkHours(checkIn, checkOut)`: `0` when either is missing,
otherwise the millisecond difference converted to hours and rounded to
two decimal places. -/
def calculateWorkHours (checkIn checkOut : Option ℤ) : ℚ :=
  match checkIn, checkOut with
  | some ci, some co =>
      (jsRound (((co : ℚ) - (ci : ℚ)) / (1000 * 60 * 60) * 100) : ℚ) / 100
  | _, _ => 0

/-- `calculateOvertime(checkIn, checkOut)`: overtime after 8 hours. -/
def calculateOvertime (checkIn checkOut : Option ℤ) : ℚ :=
  max 0 (calculateWorkHours checkIn checkOut - 8)

/-- An attendance record as seen by the worker: only the fields the
worker helpers inspect. -/
structure WorkerRecord where
  checkIn : Option ℤ
  checkOut : Option ℤ
  deriving DecidableEq, Repr

/-- `determineStatus(record)`. -/
def determineStatus (record : WorkerRecord) : String :=
  if record.checkIn = none then "absent"
  else if record.checkOut = none then "present"
  else "completed"

/-! ## Attendance scheduler

Embeds `AttendanceScheduler` from `server/attendance-scheduler.ts`.
Local wall-clock instants are a calendar day index together with the
time of day, matching the `getHours`/`getMinutes`/`setHours` calls of
the source; `toMillis` linearises them so that the drizzle `lt`
comparison on timestamps is the integer order. -/

/-- A local wall-clock instant: calendar day plus time of day. -/
structure DT where
  day : ℤ
  hour : ℕ
  minute : ℕ
  second : ℕ
  ms : ℕ
  deriving DecidableEq, Repr

/-- Milliseconds since the epoch of day 0. -/
def DT.toMillis (t : DT) : ℤ :=
  t.day * 86400000 + t.hour * 3600000 + t.minute * 60000 + t.second * 1000 + t.ms

/-- Timestamp order used by the database comparison `lt(checkIn, yesterday)`. -/
def DT.before (a b : DT) : Prop := a.toMillis < b.toMillis

instance : DecidablePred fun p : DT × DT => p.1.before p.2 := fun _ => by
  unfold DT.before; infer_instance

instance (a b : DT) : Decidable (a.before b) := by
  unfold DT.before; infer_instance

/-- An attendance row with the columns the scheduler reads or writes. -/
structure AttendanceRow where
  id : ℕ
  userId : ℕ
  checkIn : Option DT
  checkOut : Option DT
  checkOutLocation : Option String
  checkOutNotes : Option String
  workingHours : ℚ
  overtimeHours : ℚ
  status : String
  adminNotes : Option String
  deriving DecidableEq, Repr

/-- `setInterval(..., 60 * 1000)`: the scheduler period in milliseconds. -/
def schedulerIntervalMs : ℕ := 60 * 1000

/-- `yesterday`: today's date moved one day back with the time forced to
`23:59:59.999` (`setDate(getDate() - 1)` then `setHours(23, 59, 59, 999)`). -/
def yesterdayEnd (now : DT) : DT :=
  { day := now.day - 1, hour := 23, minute := 59, second := 59, ms := 999 }

/-- The `SELECT` of `handleMidnightReset`: uncompleted records
(`checkOut IS NULL`) whose `checkIn` precedes the end of the previous
day. A row whose `checkIn` is `NULL` never satisfies the SQL comparison. -/
def uncompletedRecords (now : DT) (db : List AttendanceRow) : List AttendanceRow :=
  db.filter fun r =>
    r.checkOut.isNone &&
      match r.checkIn with
      | some ci => decide (ci.before (yesterdayEnd now))
      | none => false

/-- The `UPDATE ... SET` applied to each selected record: auto-checkout
at the end of the previous day with zero working hours. -/
def autoCheckoutSet (yesterday : DT) (r : AttendanceRow) : AttendanceRow :=
  { r with
    checkOut := some yesterday
    checkOutLocation := some "Auto Check-out (Midnight)"
    checkOutNotes := some "Automatically checked out at midnight - no manual checkout recorded"
    workingHours := 0
    overtimeHours := 0
    status := "incomplete"
    adminNotes := some "Auto-checkout due to missing manual checkout" }

/-- `UPDATE ... WHERE eq(attendance.id, record.id)`. -/
def updateWhereId (db : List AttendanceRow) (i : ℕ)
    (f : AttendanceRow → AttendanceRow) : List AttendanceRow :=
  db.map fun r => if r.id = i then f r else r

/-- `handleMidnightReset`: select the uncompleted records of the previous
day and auto-checkout each one (the source additionally re-checks
`record.checkIn` before updating). -/
def handleMidnightReset (now : DT) (db : List AttendanceRow) : List AttendanceRow :=
  let yesterday := yesterdayEnd now
  (uncompletedRecords now db).foldl
    (fun acc r =>
      if r.checkIn.isSome then updateWhereId acc r.id (autoCheckoutSet yesterday)
      else acc)
    db

/-- `performScheduledTasks`: run the midnight reset only when the local
time has hour 0 and minute 0. -/
def performScheduledTasks (now : DT) (db : List AttendanceRow) : List AttendanceRow :=
  if now.hour = 0 ∧ now.minute = 0 then handleMidnightReset now db else db

/-! ## Base64

Node's `Buffer.from(s).toString('base64')` and
`Buffer.from(t, 'base64').toString()`, over UTF-8 bytes. -/

/-- The standard base64 alphabet. -/
def base64Chars : List Char :=
  "ABCDEFGHIJKLMNOPQRSTUVWXYZabcdefghijklmnopqrstuvwxyz0123456789+/".toList

/-- The alphabet character of a sextet. -/
def b64char (n : ℕ) : Char := base64Chars.getD n '='

/-- Encode a byte list, three bytes to four characters, `=`-padded. -/
def base64EncodeBytes : List ℕ → List Char
  | [] => []
  | [a] => [b64char (a / 4), b64char (a % 4 * 16), '=', '=']
  | [a, b] => [b64char (a / 4), b64char (a % 4 * 16 + b / 16), b64char (b % 16 * 4), '=']
  | a :: b :: c :: rest =>
      b64char (a / 4) :: b64char (a % 4 * 16 + b / 16) ::
      b64char (b % 16 * 4 + c / 64) :: b64char (c % 64) :: base64EncodeBytes rest

/-- `Buffer.from(s).toString('base64')`. -/
def base64EncodeStr (s : String) : String :=
  String.mk (base64EncodeBytes (s.toUTF8.data.toList.map UInt8.toNat))

/-- The sextet of an alphabet character, `none` for anything else. -/
def b64val (c : Char) : Option ℕ :=
  let i := base64Chars.indexOf c
  if i < 64 then some i else none

/-- Decode sextets, four to three bytes; a trailing pair or triple
yields the one or two complete bytes, a lone trailing sextet is dropped,
as in Node's tolerant decoder. -/
def base64DecodeSextets : List ℕ → List ℕ
  | a :: b :: c :: d :: rest =>
      (a * 4 + b / 16) :: (b % 16 * 16 + c / 4) :: (c % 4 * 64 + d) ::
        base64DecodeSextets rest
  | [a, b] => [a * 4 + b / 16]
  | [a, b, c] => [a * 4 + b / 16, b % 16 * 16 + c / 4]
  | _ => []

/-- Fuel-driven UTF-8 byte decoder (the fuel is the byte count, so the
fuel never runs out on the recursion). -/
def utf8DecodeAux : ℕ → List ℕ → List Char
  | 0, _ => []
  | _, [] => []
  | fuel + 1, a :: rest =>
      if a < 0x80 then Char.ofNat a :: utf8DecodeAux fuel rest
      else if a < 0xE0 then
        match rest with
        | b :: rest2 => Char.ofNat ((a % 32) * 64 + b % 64) :: utf8DecodeAux fuel rest2
        | [] => []
      else if a < 0xF0 then
        match rest with
        | b :: c :: rest3 =>
            Char.ofNat ((a % 16) * 4096 + (b % 64) * 64 + c % 64) :: utf8DecodeAux fuel rest3
        | _ => []
      else
        match rest with
        | b :: c :: d :: rest4 =>
            Char.ofNat ((a % 8) * 262144 + (b % 64) * 4096 + (c % 64) * 64 + d % 64) ::
              utf8DecodeAux fuel rest4
        | _ => []

/-- Decode a UTF-8 byte list into a string. -/
def utf8Decode (bytes : List ℕ) : String :=
  String.mk (utf8DecodeAux bytes.length bytes)

/-- `Buffer.from(t, 'base64').toString()`: characters outside the
alphabet (padding included) are skipped, then sextets are regrouped into
bytes and read back as UTF-8. -/
def base64DecodeStr (t : String) : String :=
  utf8Decode (base64DecodeSextets (t.toList.filterMap b64val))

/-! ## Authentication (`server/auth.ts`)

`bcrypt.compare` is an external library call; it is modelled as an
abstract comparison oracle `compare : supplied → stored → Bool` passed
to every definition that uses it. The users table is a list; drizzle's
single-row `SELECT ... WHERE` is `List.find?`. -/

/-- A row of the `users` table (the columns the auth layer touches). -/
structure User where
  id : ℕ
  username : String
  email : String
  password : String
  role : String
  fullName : String
  isActive : Bool
  deriving DecidableEq, Repr

/-- `storage.getUser(id)`. -/
def getUser (db : List User) (id : ℕ) : Option User :=
  db.find? fun u => u.id = id

/-- `storage.getUserByUsername(username)`. -/
def getUserByUsername (db : List User) (username : String) : Option User :=
  db.find? fun u => u.username = username

/-- `authenticateUser(username, password)`: `null` when the user is
unknown, the account is inactive, or the password comparison fails;
the user otherwise. -/
def authenticateUser (compare : String → String → Bool) (db : List User)
    (username password : String) : Option User :=
  match getUserByUsername db username with
  | none => none
  | some user =>
      if !user.isActive then none
      else if !compare password user.password then none
      else some user

/-- Outcome of `POST /api/login`. -/
inductive LoginResult where
  | ok (user : User) (token : String)
  | invalidCredentials
  deriving DecidableEq, Repr

/-- HTTP status of a `POST /api/login` outcome (`res.json` defaults to
200; the failure branch is `res.status(401)`). -/
def LoginResult.statusCode : LoginResult → ℕ
  | .ok _ _ => 200
  | .invalidCredentials => 401

/-- Error body of a failed `POST /api/login`. -/
def LoginResult.errorMessage : LoginResult → Option String
  | .ok _ _ => none
  | .invalidCredentials => some "Invalid credentials"

/-- `Buffer.from(username + ":" + password).toString('base64')`. -/
def mkBasicToken (username password : String) : String :=
  base64EncodeStr (username ++ ":" ++ password)

/-- `POST /api/login`. -/
def loginRoute (compare : String → String → Bool) (db : List User)
    (username password : String) : LoginResult :=
  match authenticateUser compare db username password with
  | none => .invalidCredentials
  | some user => .ok user (mkBasicToken username password)

/-- `requireAuth`: 401 when no user was attached to the request. -/
def requireAuth (user : Option User) : Except ℕ Unit :=
  match user with
  | none => .error 401
  | some _ => .ok ()

/-- `requireRole(roles)`: 403 unless a user is attached and has one of
the roles. -/
def requireRole (roles : List String) (user : Option User) : Except ℕ Unit :=
  match user with
  | none => .error 403
  | some u => if roles.contains u.role then .ok () else .error 403

/-- The session-based branch of `authMiddleware`. -/
def sessionAuth (db : List User) (sessionUserId : Option ℕ) : Option User :=
  match sessionUserId with
  | some uid => getUser db uid
  | none => none

/-- The Bearer-token fallback of `authMiddleware`: strip `Bearer `,
base64-decode, split on `:` and authenticate with the first two parts.
When the decoded token has no `:`, the JavaScript destructuring leaves
the password `undefined` and `bcrypt.compare` rejects, which the
`catch` turns into a failed attempt. -/
def bearerAuth (compare : String → String → Bool) (db : List User)
    (authHeader : Option String) : Option User :=
  match authHeader with
  | none => none
  | some h =>
      if h.startsWith "Bearer " then
        match (base64DecodeStr (h.drop 7)).splitOn ":" with
        | username :: password :: _ => authenticateUser compare db username password
        | _ => none
      else none

/-- Result of `authMiddleware`: the user attached to the request (if
any) and whether `next()` was called. -/
structure MiddlewareResult where
  user : Option User
  calledNext : Bool
  deriving DecidableEq, Repr

/-- `authMiddleware`: session first, Bearer fallback, and `next()` on
every path. -/
def authMiddleware (compare : String → String → Bool) (db : List User)
    (sessionUserId : Option ℕ) (authHeader : Option String) : MiddlewareResult :=
  match sessionAuth db sessionUserId with
  | some user => { user := some user, calledNext := true }
  | none =>
      match bearerAuth compare db authHeader with
      | some user => { user := some user, calledNext := true }
      | none => { user := none, calledNext := true }

/-! ## User routes (`server/routes-broken.ts`)

The user objects these routes return are spread copies of the stored row
with `password: undefined`; the undefined field is an `Option` that the
sanitiser sets to `none`. -/

/-- A user object as serialised by the routes, with the password slot
optional so that `password: undefined` is representable. -/
structure ResponseUser where
  id : ℕ
  username : String
  email : String
  password : Option String
  role : String
  fullName : String
  isActive : Bool
  deriving DecidableEq, Repr

/-- `{ ...user, password: undefined }`. -/
def sanitizeUser (u : User) : ResponseUser :=
  { id := u.id, username := u.username, email := u.email, password := none,
    role := u.role, fullName := u.fullName, isActive := u.isActive }

/-- Outcome of `POST /api/auth/login` (this route checks the password
hash directly and does not consult `isActive`). -/
inductive AuthLoginResult where
  | ok (user : ResponseUser) (sessionId : String)
  | invalid
  deriving DecidableEq, Repr

/-- `POST /api/auth/login`: look the user up by name, compare the
password, and answer the sanitised user plus the session id minted for
it. -/
def authLoginRoute (compare : String → String → Bool) (db : List User)
    (username password sessionId : String) : AuthLoginResult :=
  match getUserByUsername db username with
  | none => .invalid
  | some user =>
      if compare password user.password then .ok (sanitizeUser user) sessionId
      else .invalid

/-- `POST /api/users`: hash the supplied password, insert the row
(`storage.createUser` returns it with its fresh id), and answer the
sanitised copy. `body` carries the parsed insert payload and `newId` the
id the database assigns. -/
def createUserRoute (hash : String → String) (newId : ℕ) (body : User) : ResponseUser :=
  let created : User := { body with id := newId, password := hash body.password }
  sanitizeUser created

/-- `GET /api/users`: every stored user, sanitised. -/
def getUsersRoute (userList : List User) : List ResponseUser :=
  userList.map sanitizeUser

/-- Outcome of `GET /api/users/:id`. -/
inductive GetUserResult where
  | ok (user : ResponseUser)
  | notFound
  | forbidden
  deriving DecidableEq, Repr

/-- `GET /api/users/:id`: 404 when the id is unknown, 403 when the
requester is neither the user nor admin/hr, the sanitised user
otherwise. -/
def getUserByIdRoute (db : List User) (requester : User) (id : ℕ) : GetUserResult :=
  match getUser db id with
  | none => .notFound
  | some user =>
      if requester.id ≠ id ∧ ¬ (["admin", "hr"].contains requester.role) then .forbidden
      else .ok (sanitizeUser user)

/-! ## Leave requests (`POST /api/leave-requests`) -/

/-- The client-supplied body of `POST /api/leave-requests`; the client
may put anything in `status`. -/
structure LeaveRequestBody where
  leaveType : String
  startDate : ℤ
  endDate : ℤ
  reason : String
  status : Option String
  deriving DecidableEq, Repr

/-- A row of the `leaveRequests` table (the fields this flow touches). -/
structure LeaveRequest where
  id : ℕ
  userId : ℕ
  leaveType : String
  startDate : ℤ
  endDate : ℤ
  reason : String
  status : String
  deriving DecidableEq, Repr

/-- Modelled from the spec: `insertLeaveRequestSchema` and the
`leaveRequests` column defaults live in `shared/schema.ts`, which is not
among the sources; the spec states "a leave request is created with
status \x22pending\x22", so the parsed insert payload carries no status and
the insert applies the default `"pending"`. `newId` is the id the
database assigns. -/
def createLeaveRequestRoute (body : LeaveRequestBody) (requesterId : ℕ)
    (newId : ℕ) : LeaveRequest :=
  { id := newId, userId := requesterId, leaveType := body.leaveType,
    startDate := body.startDate, endDate := body.endDate,
    reason := body.reason, status := "pending" }

/-! ## Time-allocation validation (`enhanced-time-tracker.tsx`) -/

/-- One pending allocation row of the enhanced time tracker (the fields
`saveAllocations` checks). -/
structure TimeAllocation where
  projectId : ℕ
  hours : ℚ
  description : String
  deriving DecidableEq, Repr

/-- JavaScript `String.prototype.trim`: strip leading and trailing
whitespace (the library `String.trim` is not kernel-reducible). -/
def jsTrim (s : String) : String :=
  String.mk
    (((s.data.dropWhile Char.isWhitespace).reverse.dropWhile Char.isWhitespace).reverse)

/-- `saveAllocations`: the three validations in source order; the
mutation payload is returned only when all pass, and a failed check
returns with the pending-allocations state untouched. -/
def saveAllocations (totalWorkHours : ℚ) (timeAllocations : List TimeAllocation) :
    Option (List TimeAllocation) :=
  let totalAllocated := (timeAllocations.map (·.hours)).sum
  if totalWorkHours < totalAllocated then none
  else if timeAllocations.any (fun alloc => alloc.hours ≤ 0) then none
  else if timeAllocations.any (fun alloc => jsTrim alloc.description = "") then none
  else some timeAllocations

/-! ## Cleanup service (`CleanupService.cleanupOldUserRequests`)

The leave and overtime branches are textually identical up to the table
and its timestamp column, so one embedding covers both. A request table
is a list of rows; `ORDER BY ... DESC` is an insertion sort on the
timestamp. -/

/-- A row of a request table: its id, its owner and the timestamp the
cleanup orders by (`submittedAt` for leave, `createdAt` for overtime). -/
structure ReqRow where
  id : ℕ
  userId : ℕ
  submittedAt : ℤ
  deriving DecidableEq, Repr

/-- Newest-first comparison: `a` is at least as recent as `b`. -/
def reqGE (a b : ReqRow) : Prop := b.submittedAt ≤ a.submittedAt

instance : DecidableRel reqGE := fun a b =>
  inferInstanceAs (Decidable (b.submittedAt ≤ a.submittedAt))

instance : IsTotal ReqRow reqGE :=
  ⟨fun a b => (le_total b.submittedAt a.submittedAt).imp id id⟩

instance : IsTrans ReqRow reqGE :=
  ⟨fun _ _ _ hab hbc => le_trans hbc hab⟩

/-- `ORDER BY <timestamp> DESC`. -/
def sortDesc (l : List ReqRow) : List ReqRow := l.insertionSort reqGE

/-- `SELECT DISTINCT userId FROM <requests>`: first occurrences, in table
order. -/
def distinctUserIds (db : List ReqRow) : List ℕ :=
  db.foldl (fun acc x => if acc.contains x.userId then acc else acc ++ [x.userId]) []

/-- The per-user body of `cleanupOldUserRequests`: select the user's
requests newest first with the `limit(1000)` safety cap, and when more
than 5 came back, delete every selected request after the first 5. -/
def cleanupUserStep (acc : List ReqRow) (uid : ℕ) : List ReqRow :=
  let userRequests := (sortDesc (acc.filter fun r => r.userId = uid)).take 1000
  if 5 < userRequests.length then
    let idsToDelete := (userRequests.drop 5).map (·.id)
    acc.filter fun r => !idsToDelete.contains r.id
  else acc

/-- `cleanupOldUserRequests`: iterate the per-user deletion over every
user that has requests. -/
def cleanupOldUserRequests (db : List ReqRow) : List ReqRow :=
  (distinctUserIds db).foldl cleanupUserStep db

/-- The requests the per-user step deletes from a given request list:
everything after the first 5 of the up-to-1000 newest. -/
def droppedRequests' (rows : List ReqRow) : List ReqRow :=
  ((sortDesc rows).take 1000).drop 5

/-- The requests the per-user step deletes: everything after the first 5
of the user's up-to-1000 newest requests. -/
def droppedRequests (acc : List ReqRow) (u : ℕ) : List ReqRow :=
  droppedRequests' (acc.filter fun r => r.userId = u)

/-- A request table for the C8 analysis: one user holding 1001 requests
with strictly decreasing timestamps (ids equal positions, newest
first). -/
def cexDb : List ReqRow :=
  (List.range 1001).map fun i => ⟨i, 0, 1000 - (i : ℤ)⟩

/-! ## General facts -/

/-- The rounded value sits within half a unit of the exact one. -/
theorem jsRound_bounds (q : ℚ) :
    (jsRound q : ℚ) ≤ q + 1/2 ∧ q - 1/2 < (jsRound q : ℚ) := by
  constructor
  · exact_mod_cast Rat.le_floor.mp (le_refl (jsRound q))
  · by_contra h
    push_neg at h
    have h2 : ((jsRound q + 1 : ℤ) : ℚ) ≤ q + 1/2 := by push_cast; linarith
    have h3 : jsRound q + 1 ≤ jsRound q := Rat.le_floor.mpr h2
    omega

example : calculateWorkHours (some 0) (some 3600000) = 1 := by decide
example : calculateWorkHours (some 0) (some 53999999) = 15 := by decide
example : calculateOvertime (some 0) (some (9 * 3600000)) = 1 := by decide
example : base64EncodeStr "admin:pw" = "YWRtaW46cHc=" := by rfl
example : base64DecodeStr "YWRtaW46cHc=" = "admin:pw" := by rfl

/-! ## Cleanup lemmas -/

theorem sortDesc_perm (l : List ReqRow) : (sortDesc l).Perm l :=
  List.perm_insertionSort reqGE l

theorem mem_sortDesc {l : List ReqRow} {a : ReqRow} : a ∈ sortDesc l ↔ a ∈ l :=
  List.mem_insertionSort reqGE

theorem sortDesc_sorted (l : List ReqRow) : List.Sorted reqGE (sortDesc l) :=
  List.sorted_insertionSort reqGE l

/-- Every dropped request belongs to the table and to the given user. -/
theorem mem_droppedRequests {acc : List ReqRow} {u : ℕ} {r : ReqRow}
    (h : r ∈ droppedRequests acc u) : r ∈ acc ∧ r.userId = u := by
  unfold droppedRequests droppedRequests' at h
  have h1 : r ∈ sortDesc (acc.filter fun x => x.userId = u) :=
    List.take_subset _ _ (List.drop_subset _ _ h)
  have h2 : r ∈ acc.filter fun x => x.userId = u := mem_sortDesc.mp h1
  rw [List.mem_filter] at h2
  exact ⟨h2.1, by simpa using h2.2⟩

/-- Under unique ids, deleting by the dropped ids is deleting the
dropped rows. -/
theorem contains_dropped_iff {acc : List ReqRow}
    (hnd : (acc.map (·.id)).Nodup) {u : ℕ} {r : ReqRow} (hr : r ∈ acc) :
    ((droppedRequests acc u).map (·.id)).contains r.id = true ↔
      r ∈ droppedRequests acc u := by
  constructor
  · intro h
    replace h := List.elem_iff.mp h
    rcases List.mem_map.mp h with ⟨s, hs, hid⟩
    have hsa : s ∈ acc := (mem_droppedRequests hs).1
    have : s = r := List.inj_on_of_nodup_map hnd hsa hr hid
    rwa [← this]
  · intro h
    exact List.elem_iff.mpr (List.mem_map_of_mem _ h)

/-- The per-user step is the pointwise removal of the dropped rows. -/
theorem cleanupUserStep_eq {acc : List ReqRow}
    (hnd : (acc.map (·.id)).Nodup) (u : ℕ) :
    cleanupUserStep acc u =
      acc.filter fun r => !decide (r ∈ droppedRequests acc u) := by
  have hshape : cleanupUserStep acc u =
      if 5 < ((sortDesc (acc.filter fun r => r.userId = u)).take 1000).length then
        acc.filter fun r => !((droppedRequests acc u).map (·.id)).contains r.id
      else acc := rfl
  rw [hshape]
  split_ifs with hlen
  · refine List.filter_congr fun r hr => ?_
    by_cases h : r ∈ droppedRequests acc u
    · rw [(contains_dropped_iff hnd hr).mpr h]
      simp [h]
    · have : ((droppedRequests acc u).map (·.id)).contains r.id = false := by
        by_contra hc
        rw [Bool.not_eq_false] at hc
        exact h ((contains_dropped_iff hnd hr).mp hc)
      rw [this]
      simp [h]
  · have hdrop : droppedRequests acc u = [] := by
      unfold droppedRequests droppedRequests'
      rw [List.drop_eq_nil_iff]
      exact le_of_not_lt hlen
    symm
    rw [List.filter_eq_self]
    intro r _
    simp [hdrop]

/-- The per-user step never touches another user's rows. -/
theorem cleanupUserStep_filter_other {acc : List ReqRow}
    (hnd : (acc.map (·.id)).Nodup) {u v : ℕ} (hne : u ≠ v) :
    (cleanupUserStep acc v).filter (fun r => r.userId = u) =
      acc.filter fun r => r.userId = u := by
  rw [cleanupUserStep_eq hnd v, List.filter_filter]
  refine List.filter_congr fun r _ => ?_
  by_cases hu : r.userId = u
  · have hnd2 : r ∉ droppedRequests acc v := fun hmem =>
      hne (hu ▸ (mem_droppedRequests hmem).2.symm).symm
    simp [hu, hnd2]
  · simp [hu]

/-- The per-user step keeps exactly the user's non-dropped rows. -/
theorem cleanupUserStep_filter_self {acc : List ReqRow}
    (hnd : (acc.map (·.id)).Nodup) (u : ℕ) :
    (cleanupUserStep acc u).filter (fun r => r.userId = u) =
      (acc.filter fun r => r.userId = u).filter
        fun r => !decide (r ∈ droppedRequests acc u) := by
  rw [cleanupUserStep_eq hnd u, List.filter_filter, List.filter_filter]
  exact List.filter_congr fun r _ => Bool.and_comm _ _

theorem cleanupUserStep_sublist (acc : List ReqRow) (u : ℕ) :
    (cleanupUserStep acc u).Sublist acc := by
  unfold cleanupUserStep
  simp only []
  split_ifs with hlen
  · exact List.filter_sublist acc
  · exact List.Sublist.refl acc

theorem cleanupUserStep_nodup_ids {acc : List ReqRow}
    (hnd : (acc.map (·.id)).Nodup) (u : ℕ) :
    ((cleanupUserStep acc u).map (·.id)).Nodup :=
  hnd.sublist ((cleanupUserStep_sublist acc u).map _)

theorem cleanup_foldl_sublist (L : List ℕ) :
    ∀ acc : List ReqRow, (L.foldl cleanupUserStep acc).Sublist acc := by
  induction L with
  | nil => intro acc; exact List.Sublist.refl acc
  | cons v L ih =>
      intro acc
      exact (ih (cleanupUserStep acc v)).trans (cleanupUserStep_sublist acc v)

/-- Users outside the processed list keep their rows untouched. -/
theorem cleanup_foldl_other (L : List ℕ) :
    ∀ acc : List ReqRow, (acc.map (·.id)).Nodup → ∀ u, u ∉ L →
      (L.foldl cleanupUserStep acc).filter (fun r => r.userId = u) =
        acc.filter fun r => r.userId = u := by
  induction L with
  | nil => intro acc _ u _; rfl
  | cons v L ih =>
      intro acc hnd u hu
      rw [List.mem_cons, not_or] at hu
      calc (L.foldl cleanupUserStep (cleanupUserStep acc v)).filter
            (fun r => r.userId = u)
          = (cleanupUserStep acc v).filter (fun r => r.userId = u) :=
            ih (cleanupUserStep acc v) (cleanupUserStep_nodup_ids hnd v) u hu.2
        _ = acc.filter fun r => r.userId = u :=
            cleanupUserStep_filter_other hnd hu.1

/-- After the whole pass, a processed user's rows are exactly their
original rows minus the dropped ones. -/
theorem cleanup_foldl_spec (L : List ℕ) :
    ∀ acc : List ReqRow, L.Nodup → (acc.map (·.id)).Nodup → ∀ u ∈ L,
      (L.foldl cleanupUserStep acc).filter (fun r => r.userId = u) =
        (acc.filter fun r => r.userId = u).filter
          fun r => !decide (r ∈ droppedRequests acc u) := by
  induction L with
  | nil => intro acc _ _ u hu; cases hu
  | cons v L ih =>
      intro acc hL hnd u hu
      rw [List.nodup_cons] at hL
      rcases List.mem_cons.mp hu with rfl | huL
      · calc (L.foldl cleanupUserStep (cleanupUserStep acc u)).filter
              (fun r => r.userId = u)
            = (cleanupUserStep acc u).filter (fun r => r.userId = u) :=
              cleanup_foldl_other L (cleanupUserStep acc u)
                (cleanupUserStep_nodup_ids hnd u) u hL.1
          _ = (acc.filter fun r => r.userId = u).filter
                fun r => !decide (r ∈ droppedRequests acc u) :=
              cleanupUserStep_filter_self hnd u
      · have hne : u ≠ v := fun h => hL.1 (h ▸ huL)
        have hfo : (cleanupUserStep acc v).filter (fun r => r.userId = u) =
            acc.filter fun r => r.userId = u :=
          cleanupUserStep_filter_other hnd hne
        have hdr : droppedRequests (cleanupUserStep acc v) u =
            droppedRequests acc u := by
          unfold droppedRequests
          rw [hfo]
        rw [List.foldl_cons,
          ih (cleanupUserStep acc v) hL.2 (cleanupUserStep_nodup_ids hnd v) u huL,
          hfo, hdr]

/-- Membership in the distinct-users accumulator is monotone. -/
theorem distinct_foldl_mono (l : List ReqRow) :
    ∀ (acc : List ℕ) (u : ℕ), u ∈ acc →
      u ∈ l.foldl
        (fun acc x => if acc.contains x.userId then acc else acc ++ [x.userId]) acc := by
  induction l with
  | nil => intro acc u hu; exact hu
  | cons r l ih =>
      intro acc u hu
      by_cases h : r.userId ∈ acc
      · simpa [h] using ih acc u hu
      · simpa [h] using ih (acc ++ [r.userId]) u (List.mem_append_left _ hu)

/-- Every row's owner appears among the distinct user ids. -/
theorem userId_mem_distinct {db : List ReqRow} {r : ReqRow} (hr : r ∈ db) :
    r.userId ∈ distinctUserIds db := by
  unfold distinctUserIds
  suffices h : ∀ (l : List ReqRow) (acc : List ℕ), r ∈ l →
      r.userId ∈ l.foldl
        (fun acc x => if acc.contains x.userId then acc else acc ++ [x.userId]) acc by
    exact h db [] hr
  intro l
  induction l with
  | nil => intro acc h; cases h
  | cons s l ih =>
      intro acc hmem
      rcases List.mem_cons.mp hmem with rfl | hml
      · by_cases h : r.userId ∈ acc
        · simpa [h] using distinct_foldl_mono l acc r.userId h
        · simpa [h] using distinct_foldl_mono l (acc ++ [r.userId]) r.userId
            (List.mem_append_right _ (List.mem_singleton_self _))
      · by_cases h : s.userId ∈ acc
        · simpa [h] using ih acc hml
        · simpa [h] using ih (acc ++ [s.userId]) hml

/-- The distinct user ids are duplicate-free. -/
theorem distinctUserIds_nodup (db : List ReqRow) : (distinctUserIds db).Nodup := by
  unfold distinctUserIds
  suffices h : ∀ (l : List ReqRow) (acc : List ℕ), acc.Nodup →
      (l.foldl
        (fun acc x => if acc.contains x.userId then acc else acc ++ [x.userId]) acc).Nodup by
    exact h db [] List.nodup_nil
  intro l
  induction l with
  | nil => intro acc h; exact h
  | cons r l ih =>
      intro acc hacc
      by_cases h : r.userId ∈ acc
      · simpa [h] using ih acc hacc
      · have hstep : (acc ++ [r.userId]).Nodup := by
          rw [List.nodup_append]
          refine ⟨hacc, List.nodup_singleton _, ?_⟩
          intro x hx hx1
          rw [List.mem_singleton] at hx1
          subst hx1
          exact h hx
        simpa [h] using ih (acc ++ [r.userId]) hstep

/-- When every request belongs to user 0 and 0 was already collected,
the distinct-users fold adds nothing. -/
theorem distinct_foldl_const_zero : ∀ (l : List ReqRow) (acc : List ℕ),
    (∀ r ∈ l, r.userId = 0) → 0 ∈ acc →
    l.foldl
      (fun acc x => if acc.contains x.userId then acc else acc ++ [x.userId]) acc
      = acc := by
  intro l
  induction l with
  | nil => intro acc _ _; rfl
  | cons r l ih =>
      intro acc hall hacc
      have h0 : r.userId = 0 := hall r (List.mem_cons_self r l)
      have hc : acc.contains r.userId = true := by
        rw [h0]
        exact List.elem_iff.mpr hacc
      simp only [List.foldl_cons, hc, if_true]
      exact ih acc (fun s hs => hall s (List.mem_cons_of_mem r hs)) hacc

/-- A non-empty single-user table has exactly one distinct user id. -/
theorem distinctUserIds_all_zero {db : List ReqRow}
    (h0 : ∀ r ∈ db, r.userId = 0) (hne : db ≠ []) : distinctUserIds db = [0] := by
  unfold distinctUserIds
  cases db with
  | nil => exact absurd rfl hne
  | cons r l =>
      have hr0 : r.userId = 0 := h0 r (List.mem_cons_self r l)
      have hc : (([] : List ℕ).contains r.userId) = false := rfl
      simp only [List.foldl_cons, hc, Bool.false_eq_true, if_false, List.nil_append]
      rw [hr0]
      exact distinct_foldl_const_zero l [0]
        (fun s hs => h0 s (List.mem_cons_of_mem r hs)) (List.mem_singleton_self 0)

/-- Every row of the C8 table belongs to user 0. -/
theorem cexDb_all_zero : ∀ r ∈ cexDb, r.userId = 0 := by
  intro r hr
  unfold cexDb at hr
  rcases List.mem_map.mp hr with ⟨i, -, rfl⟩
  rfl

/-- Filtering the C8 table to user 0 is the identity. -/
theorem cexDb_filter_zero : cexDb.filter (fun r => r.userId = 0) = cexDb :=
  List.filter_eq_self.mpr fun r hr => decide_eq_true (cexDb_all_zero r hr)

/-- The C8 table is already sorted newest first. -/
theorem cexDb_sorted : List.Sorted reqGE cexDb := by
  unfold cexDb
  rw [List.Sorted, List.pairwise_map]
  refine (List.pairwise_lt_range 1001).imp ?_
  intro i j hij
  show (1000 : ℤ) - (j : ℤ) ≤ 1000 - (i : ℤ)
  have : (i : ℤ) ≤ (j : ℤ) := by exact_mod_cast le_of_lt hij
  linarith

theorem cexDb_sortDesc : sortDesc cexDb = cexDb :=
  cexDb_sorted.insertionSort_eq

theorem cexDb_length : cexDb.length = 1001 := by
  unfold cexDb
  rw [List.length_map, List.length_range]

/-- The ids of the C8 table are its positions, hence duplicate-free. -/
theorem cexDb_nodup_ids : (cexDb.map (·.id)).Nodup := by
  have h : cexDb.map (·.id) = List.range 1001 := by
    unfold cexDb
    rw [List.map_map]
    exact List.map_id _
  rw [h]
  exact List.nodup_range 1001

/-- The single cleanup pass over the C8 table. -/
theorem cexDb_cleanup_eq : cleanupOldUserRequests cexDb =
    cexDb.filter fun r => !decide (r ∈ droppedRequests cexDb 0) := by
  have hne : cexDb ≠ [] := by
    intro h
    have := cexDb_length
    rw [h] at this
    cases this
  have hd : distinctUserIds cexDb = [0] :=
    distinctUserIds_all_zero cexDb_all_zero hne
  unfold cleanupOldUserRequests
  rw [hd, List.foldl_cons, List.foldl_nil]
  exact cleanupUserStep_eq cexDb_nodup_ids 0

/-- The dropped requests of the C8 table are positions 5 through 999. -/
theorem cexDb_dropped : droppedRequests cexDb 0 =
    ((List.range 1000).map fun i => (⟨i, 0, 1000 - (i : ℤ)⟩ : ReqRow)).drop 5 := by
  unfold droppedRequests droppedRequests'
  rw [cexDb_filter_zero, cexDb_sortDesc]
  unfold cexDb
  rw [← List.map_take, List.take_range]
  norm_num

/-- The oldest request is not among the dropped ones: it lies beyond the
1000-newest cap. -/
theorem cexDb_oldest_not_dropped :
    (⟨1000, 0, 0⟩ : ReqRow) ∉ droppedRequests cexDb 0 := by
  rw [cexDb_dropped]
  intro h
  have h2 : (⟨1000, 0, 0⟩ : ReqRow) ∈
      (List.range 1000).map fun i => (⟨i, 0, 1000 - (i : ℤ)⟩ : ReqRow) :=
    List.drop_subset _ _ h
  rcases List.mem_map.mp h2 with ⟨i, hi, hfi⟩
  have : i = 1000 := congrArg ReqRow.id hfi
  subst this
  exact absurd (List.mem_range.mp hi) (lt_irrefl 1000)

/-- Decomposition of a user's sorted requests into the kept head, the
dropped middle and the beyond-the-cap tail. -/
theorem sorted_decomposition (rows : List ReqRow) :
    sortDesc rows =
      (sortDesc rows).take 5 ++ droppedRequests' rows ++ (sortDesc rows).drop 1000 := by
  unfold droppedRequests'
  calc sortDesc rows
      = (sortDesc rows).take 1000 ++ (sortDesc rows).drop 1000 :=
        (List.take_append_drop 1000 (sortDesc rows)).symm
    _ = ((sortDesc rows).take 1000).take 5 ++ ((sortDesc rows).take 1000).drop 5 ++
          (sortDesc rows).drop 1000 := by
        rw [List.take_append_drop 5 ((sortDesc rows).take 1000)]
    _ = (sortDesc rows).take 5 ++ ((sortDesc rows).take 1000).drop 5 ++
          (sortDesc rows).drop 1000 := by
        rw [List.take_take]
        norm_num

/-- C8 amended: under unique request ids, after `cleanupOldUserRequests`
a user keeps only requests among the 5 most recent of their up-to-1000
newest (requests older than the 1000 newest escape the cleanup); the 5
most recent are always kept, a user with at most 1000 requests keeps at
most 5, and a user with at most 5 keeps exactly their requests. -/
theorem claim8_amended_retention (db : List ReqRow)
    (hnd : (db.map (·.id)).Nodup) (uid : ℕ) :
    (∀ r ∈ cleanupOldUserRequests db, r.userId = uid →
      r ∈ (sortDesc (db.filter fun x => x.userId = uid)).take 5 ∨
        r ∈ (sortDesc (db.filter fun x => x.userId = uid)).drop 1000) ∧
    (∀ r ∈ (sortDesc (db.filter fun x => x.userId = uid)).take 5,
      r ∈ cleanupOldUserRequests db) ∧
    ((db.filter fun x => x.userId = uid).length ≤ 1000 →
      ((cleanupOldUserRequests db).filter fun x => x.userId = uid).length ≤ 5) ∧
    ((db.filter fun x => x.userId = uid).length ≤ 5 →
      (cleanupOldUserRequests db).filter (fun x => x.userId = uid) =
        db.filter fun x => x.userId = uid) := by
  by_cases hmem : uid ∈ distinctUserIds db
  case neg =>
    have hrows_nil : db.filter (fun x => x.userId = uid) = [] := by
      rw [List.filter_eq_nil_iff]
      intro r hr hq
      rw [decide_eq_true_eq] at hq
      exact hmem (hq ▸ userId_mem_distinct hr)
    have hclean_nil : (cleanupOldUserRequests db).filter
        (fun x => x.userId = uid) = [] := by
      rw [List.filter_eq_nil_iff]
      intro r hr hq
      have hdb : r ∈ db :=
        (cleanup_foldl_sublist (distinctUserIds db) db).subset hr
      have : r ∈ db.filter fun x => x.userId = uid :=
        List.mem_filter.mpr ⟨hdb, hq⟩
      rw [hrows_nil] at this
      cases this
    refine ⟨?_, ?_, ?_, ?_⟩
    · intro r hr huid
      have hdb : r ∈ db :=
        (cleanup_foldl_sublist (distinctUserIds db) db).subset hr
      have : r ∈ db.filter fun x => x.userId = uid :=
        List.mem_filter.mpr ⟨hdb, decide_eq_true huid⟩
      rw [hrows_nil] at this
      cases this
    · intro r hr
      rw [hrows_nil] at hr
      cases hr
    · intro _
      rw [hclean_nil]
      norm_num
    · intro _
      rw [hclean_nil, hrows_nil]
  case pos =>
    have E : (cleanupOldUserRequests db).filter (fun r => r.userId = uid) =
        (db.filter fun r => r.userId = uid).filter
          fun r => !decide (r ∈ droppedRequests db uid) :=
      cleanup_foldl_spec (distinctUserIds db) db (distinctUserIds_nodup db)
        hnd uid hmem
    have hdb_nodup : db.Nodup := List.Nodup.of_map _ hnd
    have hrows_nodup : (db.filter fun x => x.userId = uid).Nodup :=
      hdb_nodup.filter _
    have hsorted_nodup : (sortDesc (db.filter fun x => x.userId = uid)).Nodup :=
      (sortDesc_perm _).nodup_iff.mpr hrows_nodup
    have hdecomp := sorted_decomposition (db.filter fun x => x.userId = uid)
    have hdropped_eq : droppedRequests db uid =
        droppedRequests' (db.filter fun x => x.userId = uid) := rfl
    have hdisj : List.Disjoint
        ((sortDesc (db.filter fun x => x.userId = uid)).take 5)
        (droppedRequests' (db.filter fun x => x.userId = uid)) := by
      have htn : ((sortDesc (db.filter fun x => x.userId = uid)).take 1000).Nodup :=
        (List.take_sublist _ _).nodup hsorted_nodup
      rw [show (sortDesc (db.filter fun x => x.userId = uid)).take 1000 =
          ((sortDesc (db.filter fun x => x.userId = uid)).take 1000).take 5 ++
            ((sortDesc (db.filter fun x => x.userId = uid)).take 1000).drop 5 from
          (List.take_append_drop 5 _).symm, List.take_take] at htn
      norm_num at htn
      rw [List.nodup_append] at htn
      exact htn.2.2
    have hmem_clean : ∀ r, r ∈ cleanupOldUserRequests db → r.userId = uid →
        (r ∈ db.filter fun x => x.userId = uid) ∧
          r ∉ droppedRequests db uid := by
      intro r hr huid
      have h1 : r ∈ (cleanupOldUserRequests db).filter fun x => x.userId = uid :=
        List.mem_filter.mpr ⟨hr, decide_eq_true huid⟩
      rw [E] at h1
      rw [List.mem_filter] at h1
      refine ⟨h1.1, ?_⟩
      have := h1.2
      simpa using this
    refine ⟨?_, ?_, ?_, ?_⟩
    · intro r hr huid
      obtain ⟨hrows, hnd2⟩ := hmem_clean r hr huid
      have hs : r ∈ sortDesc (db.filter fun x => x.userId = uid) :=
        mem_sortDesc.mpr hrows
      rw [hdecomp, List.mem_append, List.mem_append] at hs
      rcases hs with (h5 | hdrop) | h1000
      · exact Or.inl h5
      · exact absurd (hdropped_eq ▸ hdrop) hnd2
      · exact Or.inr h1000
    · intro r hr
      have hs : r ∈ sortDesc (db.filter fun x => x.userId = uid) :=
        List.take_subset _ _ hr
      have hrows : r ∈ db.filter fun x => x.userId = uid := mem_sortDesc.mp hs
      have hgood : r ∉ droppedRequests db uid := by
        rw [hdropped_eq]
        intro hc
        exact hdisj hr hc
      have : r ∈ (db.filter fun x => x.userId = uid).filter
          fun x => !decide (x ∈ droppedRequests db uid) :=
        List.mem_filter.mpr ⟨hrows, by simpa using hgood⟩
      rw [← E] at this
      exact (List.mem_filter.mp this).1
    · intro hlen
      have h1000 : (sortDesc (db.filter fun x => x.userId = uid)).drop 1000 = [] := by
        rw [List.drop_eq_nil_iff]
        calc (sortDesc (db.filter fun x => x.userId = uid)).length
            = (db.filter fun x => x.userId = uid).length :=
              (sortDesc_perm _).length_eq
          _ ≤ 1000 := hlen
      have hsub : ((cleanupOldUserRequests db).filter fun x => x.userId = uid) ⊆
          (sortDesc (db.filter fun x => x.userId = uid)).take 5 := by
        intro r hr
        rw [List.mem_filter] at hr
        have huid : r.userId = uid := by simpa using hr.2
        obtain ⟨hrows, hnd2⟩ := hmem_clean r hr.1 huid
        have hs : r ∈ sortDesc (db.filter fun x => x.userId = uid) :=
          mem_sortDesc.mpr hrows
        rw [hdecomp, List.mem_append, List.mem_append] at hs
        rcases hs with (h5 | hdrop) | hbig
        · exact h5
        · exact absurd (hdropped_eq ▸ hdrop) hnd2
        · rw [h1000] at hbig
          cases hbig
      have hfil_nodup : ((cleanupOldUserRequests db).filter
          fun x => x.userId = uid).Nodup :=
        ((cleanup_foldl_sublist (distinctUserIds db) db).nodup hdb_nodup).filter _
      calc ((cleanupOldUserRequests db).filter fun x => x.userId = uid).length
          ≤ ((sortDesc (db.filter fun x => x.userId = uid)).take 5).length :=
            (hfil_nodup.subperm hsub).length_le
        _ ≤ 5 := by
            rw [List.length_take]
            exact min_le_left _ _
    · intro hlen
      have hdropped_nil : droppedRequests db uid = [] := by
        rw [hdropped_eq]
        unfold droppedRequests'
        rw [List.drop_eq_nil_iff, List.length_take]
        refine le_trans (min_le_right _ _) ?_
        calc (sortDesc (db.filter fun x => x.userId = uid)).length
            = (db.filter fun x => x.userId = uid).length :=
              (sortDesc_perm _).length_eq
          _ ≤ 5 := hlen
      rw [E]
      rw [List.filter_eq_self]
      intro r _
      simp [hdropped_nil]

/-- C8 counterexample: in a table where user 0 owns 1001 requests, the
cleanup retains the oldest request — which is not among the user's 5
most recent — because the `limit(1000)` cap hides it from the deletion. -/
theorem claim8_counterexample :
    (⟨1000, 0, 0⟩ : ReqRow) ∈ cleanupOldUserRequests cexDb ∧
    (⟨1000, 0, 0⟩ : ReqRow) ∉
      (sortDesc (cexDb.filter fun r => r.userId = 0)).take 5 ∧
    (cexDb.filter fun r => r.userId = 0).length = 1001 := by
  refine ⟨?_, ?_, ?_⟩
  · rw [cexDb_cleanup_eq, List.mem_filter]
    constructor
    · unfold cexDb
      exact List.mem_map.mpr ⟨1000, List.mem_range.mpr (by norm_num), by decide⟩
    · simpa using cexDb_oldest_not_dropped
  · rw [cexDb_filter_zero, cexDb_sortDesc]
    intro h
    have h3 : cexDb.take 5 =
        (List.range 5).map fun i => (⟨i, 0, 1000 - (i : ℤ)⟩ : ReqRow) := by
      unfold cexDb
      rw [← List.map_take, List.take_range]
      norm_num
    rw [h3] at h
    rcases List.mem_map.mp h with ⟨i, hi, hfi⟩
    have hieq : i = 1000 := congrArg ReqRow.id hfi
    subst hieq
    exact absurd (List.mem_range.mp hi) (by norm_num)
  · rw [cexDb_filter_zero, cexDb_length]

/-- C8 witness: a user with two requests keeps exactly them. -/
theorem claim8_amended_retention_witness :
    (cleanupOldUserRequests [⟨1, 0, 10⟩, ⟨2, 0, 20⟩]).filter
        (fun x => x.userId = 0) =
      List.filter (fun x => x.userId = 0) [⟨1, 0, 10⟩, ⟨2, 0, 20⟩] :=
  (claim8_amended_retention [⟨1, 0, 10⟩, ⟨2, 0, 20⟩] (by decide) 0).2.2.2 (by decide)

/-! ## Claims -/

/-- C2: every leave request created through `POST /api/leave-requests`
has status "pending" at creation, whatever status the client supplied in
the body. -/
theorem claim2_leave_created_pending (body : LeaveRequestBody)
    (requesterId newId : ℕ) :
    (createLeaveRequestRoute body requesterId newId).status = "pending" := rfl

/-- C3: overtime is `max 0 (workHours - 8)` for every check-in/check-out
pair, hence zero whenever the pair yields at most 8 working hours and
never negative. -/
theorem claim3_overtime_formula (checkIn checkOut : Option ℤ) :
    calculateOvertime checkIn checkOut =
      max 0 (calculateWorkHours checkIn checkOut - 8) ∧
    (calculateWorkHours checkIn checkOut ≤ 8 →
      calculateOvertime checkIn checkOut = 0) ∧
    0 ≤ calculateOvertime checkIn checkOut := by
  refine ⟨rfl, fun h => ?_, le_max_left _ _⟩
  have : calculateWorkHours checkIn checkOut - 8 ≤ 0 := sub_nonpos.mpr h
  simpa [calculateOvertime] using max_eq_left this

/-- C3 witness: a four-hour pair has overtime zero. -/
theorem claim3_overtime_formula_witness :
    calculateWorkHours (some 0) (some 14400000) ≤ 8 ∧
      calculateOvertime (some 0) (some 14400000) = 0 :=
  ⟨by decide, (claim3_overtime_formula (some 0) (some 14400000)).2.1 (by decide)⟩

/-- C5: the scheduler interval is 60 seconds; the interval task touches
the attendance table only in a minute with hour 0 and minute 0 (where it
runs the midnight reset), and every record the reset selects for update
is uncompleted with a check-in before the end of the previous day. -/
theorem claim5_scheduler_minute_gate (now : DT) (db : List AttendanceRow) :
    schedulerIntervalMs = 60000 ∧
    (¬ (now.hour = 0 ∧ now.minute = 0) → performScheduledTasks now db = db) ∧
    ((now.hour = 0 ∧ now.minute = 0) →
      performScheduledTasks now db = handleMidnightReset now db) ∧
    (∀ r ∈ uncompletedRecords now db,
      r.checkOut = none ∧ ∃ ci, r.checkIn = some ci ∧ ci.before (yesterdayEnd now)) := by
  refine ⟨rfl, fun h => ?_, fun h => ?_, fun r hr => ?_⟩
  · simp [performScheduledTasks, h]
  · simp [performScheduledTasks, h]
  · unfold uncompletedRecords at hr
    rw [List.mem_filter] at hr
    obtain ⟨-, hcond⟩ := hr
    rw [Bool.and_eq_true] at hcond
    obtain ⟨h1, h2⟩ := hcond
    refine ⟨Option.isNone_iff_eq_none.mp h1, ?_⟩
    cases hci : r.checkIn with
    | none => rw [hci] at h2; simp at h2
    | some ci =>
        rw [hci] at h2
        exact ⟨ci, rfl, of_decide_eq_true h2⟩

/-- C5 witness: at 12:30 the task leaves a one-row table untouched, and
the row a midnight run selects is uncompleted from the previous day. -/
theorem claim5_scheduler_minute_gate_witness :
    performScheduledTasks ⟨0, 12, 30, 0, 0⟩
        [⟨1, 7, some ⟨0, 9, 0, 0, 0⟩, none, none, none, 0, 0, "present", none⟩] =
      [⟨1, 7, some ⟨0, 9, 0, 0, 0⟩, none, none, none, 0, 0, "present", none⟩] :=
  (claim5_scheduler_minute_gate ⟨0, 12, 30, 0, 0⟩
    [⟨1, 7, some ⟨0, 9, 0, 0, 0⟩, none, none, none, 0, 0, "present", none⟩]).2.1
    (by decide)

/-- Characterisation of a successful `saveAllocations`. -/
theorem saveAllocations_some_iff (twh : ℚ) (l : List TimeAllocation) :
    saveAllocations twh l = some l ↔
      (l.map (·.hours)).sum ≤ twh ∧
        ∀ a ∈ l, 0 < a.hours ∧ jsTrim a.description ≠ "" := by
  unfold saveAllocations
  simp only []
  split_ifs with h1 h2 h3
  · simp only [reduceCtorEq, false_iff, not_and]
    intro hle
    exact absurd hle (not_le.mpr h1)
  · simp only [reduceCtorEq, false_iff, not_and]
    intro _ hall
    rcases List.any_eq_true.mp h2 with ⟨a, ha, hle⟩
    exact absurd (hall a ha).1 (not_lt.mpr (of_decide_eq_true hle))
  · simp only [reduceCtorEq, false_iff, not_and]
    intro _ hall
    rcases List.any_eq_true.mp h3 with ⟨a, ha, hbl⟩
    exact absurd (of_decide_eq_true hbl) (hall a ha).2
  · simp only [true_iff]
    simp only [List.any_eq_true, not_exists, decide_eq_true_eq] at h2 h3
    refine ⟨le_of_not_lt h1, fun a ha => ⟨?_, ?_⟩⟩
    · by_contra hc
      push_neg at hc
      exact h2 a ⟨ha, hc⟩
    · intro hc
      exact h3 a ⟨ha, hc⟩

/-- Failed validations send nothing: the result is `none` or the full
payload. -/
theorem saveAllocations_none_or_some (twh : ℚ) (l : List TimeAllocation) :
    saveAllocations twh l = none ∨ saveAllocations twh l = some l := by
  unfold saveAllocations
  simp only []
  split_ifs <;> simp

/-- C6: `saveAllocations` submits the entries iff the allocated total
does not exceed the available hours, every allocation has positive
hours, and every allocation has a non-blank description; otherwise no
mutation is sent. -/
theorem claim6_time_allocation_validation (totalWorkHours : ℚ)
    (timeAllocations : List TimeAllocation) :
    (saveAllocations totalWorkHours timeAllocations = some timeAllocations ↔
      (timeAllocations.map (·.hours)).sum ≤ totalWorkHours ∧
        ∀ a ∈ timeAllocations, 0 < a.hours ∧ jsTrim a.description ≠ "") ∧
    (saveAllocations totalWorkHours timeAllocations = none ↔
      ¬ ((timeAllocations.map (·.hours)).sum ≤ totalWorkHours ∧
        ∀ a ∈ timeAllocations, 0 < a.hours ∧ jsTrim a.description ≠ "")) := by
  refine ⟨saveAllocations_some_iff totalWorkHours timeAllocations, ?_, ?_⟩
  · intro hn hP
    rw [(saveAllocations_some_iff totalWorkHours timeAllocations).mpr hP] at hn
    cases hn
  · intro hP
    rcases saveAllocations_none_or_some totalWorkHours timeAllocations with h | h
    · exact h
    · exact absurd ((saveAllocations_some_iff totalWorkHours timeAllocations).mp h) hP

/-- C1 counterexample: the midnight auto-checkout writes a check-out at
23:59:59.999 of the previous day together with `workingHours: 0`, even
though check-out minus check-in for the written pair is 15 hours: the
claim fails on the midnight path. -/
theorem claim1_counterexample :
    handleMidnightReset ⟨1, 0, 0, 0, 0⟩
        [⟨1, 7, some ⟨0, 9, 0, 0, 0⟩, none, none, none, 0, 0, "present", none⟩] =
      [⟨1, 7, some ⟨0, 9, 0, 0, 0⟩, some ⟨0, 23, 59, 59, 999⟩,
        some "Auto Check-out (Midnight)",
        some "Automatically checked out at midnight - no manual checkout recorded",
        0, 0, "incomplete", some "Auto-checkout due to missing manual checkout"⟩] ∧
    calculateWorkHours (some (DT.toMillis ⟨0, 9, 0, 0, 0⟩))
        (some (DT.toMillis ⟨0, 23, 59, 59, 999⟩)) = 15 ∧
    (0 : ℚ) ≠ 15 :=
  ⟨by decide, by decide, by decide⟩

/-- C1 amended: for records with both stamps the worker computes working
hours as check-out minus check-in in hours rounded to two decimals
(within 1/200 of the exact difference); the midnight auto-checkout path
instead writes a check-out at the end of the previous day with
`workingHours` forced to 0, regardless of the elapsed time. -/
theorem claim1_amended_workhours (a b : ℤ) (now : DT) (r : AttendanceRow) :
    calculateWorkHours (some a) (some b) =
      (jsRound (((b : ℚ) - (a : ℚ)) / (1000 * 60 * 60) * 100) : ℚ) / 100 ∧
    |calculateWorkHours (some a) (some b) -
        ((b : ℚ) - (a : ℚ)) / (1000 * 60 * 60)| ≤ 1 / 200 ∧
    (autoCheckoutSet (yesterdayEnd now) r).workingHours = 0 ∧
    (autoCheckoutSet (yesterdayEnd now) r).checkOut = some (yesterdayEnd now) := by
  refine ⟨rfl, ?_, rfl, rfl⟩
  have hb := jsRound_bounds ((((b : ℚ) - (a : ℚ)) / (1000 * 60 * 60)) * 100)
  have hcw : calculateWorkHours (some a) (some b) =
      (jsRound ((((b : ℚ) - (a : ℚ)) / (1000 * 60 * 60)) * 100) : ℚ) / 100 := rfl
  rw [hcw, abs_le]
  obtain ⟨h1, h2⟩ := hb
  constructor
  · linarith
  · linarith

/-- `authenticateUser` fails exactly on unknown username, deactivated
account, or failed password comparison. -/
theorem authenticateUser_eq_none_iff (compare : String → String → Bool)
    (db : List User) (username password : String) :
    authenticateUser compare db username password = none ↔
      getUserByUsername db username = none ∨
        ∃ u, getUserByUsername db username = some u ∧
          (u.isActive = false ∨ compare password u.password = false) := by
  unfold authenticateUser
  cases h : getUserByUsername db username with
  | none => simp
  | some u =>
      cases hA : u.isActive with
      | false => simp [hA]
      | true =>
          cases hC : compare password u.password with
          | false => simp [hA, hC]
          | true => simp [hA, hC]

/-- A successful `authenticateUser` returns the stored row, which is
active and passed the comparison. -/
theorem authenticateUser_eq_some (compare : String → String → Bool)
    (db : List User) (username password : String) (u : User) :
    authenticateUser compare db username password = some u →
      getUserByUsername db username = some u ∧ u.isActive = true ∧
        compare password u.password = true := by
  unfold authenticateUser
  cases h : getUserByUsername db username with
  | none => intro hc; cases hc
  | some v =>
      cases hA : v.isActive with
      | false => simp [hA]
      | true =>
          cases hC : compare password v.password with
          | false => simp [hA, hC]
          | true =>
              simp only [hA, hC, Bool.not_true, Bool.false_eq_true, if_false,
                Option.some.injEq]
              rintro rfl
              exact ⟨rfl, hA, hC⟩

/-- C4: `POST /api/login` answers 401 "Invalid credentials" exactly when
`authenticateUser` returns null — unknown username, deactivated account,
or failed password comparison — and on success answers 200 with the user
and the base64 `username:password` token. -/
theorem claim4_login_behaviour (compare : String → String → Bool)
    (db : List User) (username password : String) :
    (authenticateUser compare db username password = none ↔
      getUserByUsername db username = none ∨
        ∃ u, getUserByUsername db username = some u ∧
          (u.isActive = false ∨ compare password u.password = false)) ∧
    (∀ u, authenticateUser compare db username password = some u →
      getUserByUsername db username = some u ∧ u.isActive = true ∧
        compare password u.password = true) ∧
    ((loginRoute compare db username password).statusCode = 401 ∧
        (loginRoute compare db username password).errorMessage =
          some "Invalid credentials" ↔
      authenticateUser compare db username password = none) ∧
    (∀ u, authenticateUser compare db username password = some u →
      loginRoute compare db username password =
        .ok u (mkBasicToken username password) ∧
      (loginRoute compare db username password).statusCode = 200) := by
  refine ⟨authenticateUser_eq_none_iff compare db username password,
    fun u => authenticateUser_eq_some compare db username password u, ?_, ?_⟩
  · unfold loginRoute
    cases h : authenticateUser compare db username password with
    | none => simp [LoginResult.statusCode, LoginResult.errorMessage]
    | some u => simp [LoginResult.statusCode, LoginResult.errorMessage]
  · intro u hu
    unfold loginRoute
    rw [hu]
    exact ⟨rfl, rfl⟩

/-- C4 witness: with an equality comparison oracle, an active stored
user logs in with the right password (200 and token) and is rejected
with 401 on a wrong one. -/
theorem claim4_login_behaviour_witness :
    loginRoute (fun s t => s = t)
        [{ id := 1, username := "admin", email := "a@b.c", password := "pw",
           role := "admin", fullName := "Admin", isActive := true }]
        "admin" "pw" =
      .ok { id := 1, username := "admin", email := "a@b.c", password := "pw",
            role := "admin", fullName := "Admin", isActive := true }
        (mkBasicToken "admin" "pw") ∧
    (loginRoute (fun s t => s = t)
        [{ id := 1, username := "admin", email := "a@b.c", password := "pw",
           role := "admin", fullName := "Admin", isActive := true }]
        "admin" "wrong").statusCode = 401 := by
  constructor
  · exact ((claim4_login_behaviour (fun s t => decide (s = t))
      [{ id := 1, username := "admin", email := "a@b.c", password := "pw",
         role := "admin", fullName := "Admin", isActive := true }]
      "admin" "pw").2.2.2 _ (by decide)).1
  · exact (((claim4_login_behaviour (fun s t => decide (s = t))
      [{ id := 1, username := "admin", email := "a@b.c", password := "pw",
         role := "admin", fullName := "Admin", isActive := true }]
      "admin" "wrong").2.2.1).mpr (by decide)).1

/-- C9: the login, user-creation, user-list and single-user endpoints
only ever serialise users with the password slot `undefined`. -/
theorem claim9_password_not_disclosed (compare : String → String → Bool)
    (hash : String → String) (db userList : List User)
    (username password sessionId : String) (newId uid : ℕ)
    (body requester : User) :
    (∀ ru sid, authLoginRoute compare db username password sessionId =
        .ok ru sid → ru.password = none) ∧
    (createUserRoute hash newId body).password = none ∧
    (∀ ru ∈ getUsersRoute userList, ru.password = none) ∧
    (∀ ru, getUserByIdRoute db requester uid = .ok ru → ru.password = none) := by
  refine ⟨?_, rfl, ?_, ?_⟩
  · intro ru sid h
    unfold authLoginRoute at h
    cases hu : getUserByUsername db username with
    | none => rw [hu] at h; cases h
    | some u =>
        rw [hu] at h
        dsimp only at h
        split_ifs at h with hc <;> cases h <;> rfl
  · intro ru hru
    unfold getUsersRoute at hru
    rcases List.mem_map.mp hru with ⟨u, -, rfl⟩
    rfl
  · intro ru h
    unfold getUserByIdRoute at h
    cases hu : getUser db uid with
    | none => rw [hu] at h; cases h
    | some u =>
        rw [hu] at h
        dsimp only at h
        split_ifs at h with hf <;> cases h <;> rfl

/-- C9 witness: a concrete login success carries no password hash. -/
theorem claim9_password_not_disclosed_witness :
    authLoginRoute (fun s t => s = t)
        [{ id := 1, username := "admin", email := "a@b.c", password := "hash",
           role := "admin", fullName := "Admin", isActive := true }]
        "admin" "hash" "sess1" =
      .ok { id := 1, username := "admin", email := "a@b.c", password := none,
            role := "admin", fullName := "Admin", isActive := true } "sess1" ∧
    ({ id := 1, username := "admin", email := "a@b.c", password := none,
       role := "admin", fullName := "Admin", isActive := true } : ResponseUser).password
      = none := by
  refine ⟨by decide, ?_⟩
  exact (claim9_password_not_disclosed (fun s t => decide (s = t)) id
    [{ id := 1, username := "admin", email := "a@b.c", password := "hash",
       role := "admin", fullName := "Admin", isActive := true }] []
    "admin" "hash" "sess1" 0 0
    { id := 1, username := "admin", email := "a@b.c", password := "hash",
      role := "admin", fullName := "Admin", isActive := true }
    { id := 1, username := "admin", email := "a@b.c", password := "hash",
      role := "admin", fullName := "Admin", isActive := true }).1
    _ "sess1" (by decide)

/-- C10: `authMiddleware` calls `next()` on every request; the request
user stays unset exactly when both the session lookup and the Bearer
fallback fail, and only `requireAuth`/`requireRole` reject requests. -/
theorem claim10_authMiddleware_always_next (compare : String → String → Bool)
    (db : List User) (sessionUserId : Option ℕ) (authHeader : Option String) :
    (authMiddleware compare db sessionUserId authHeader).calledNext = true ∧
    ((authMiddleware compare db sessionUserId authHeader).user = none ↔
      sessionAuth db sessionUserId = none ∧
        bearerAuth compare db authHeader = none) ∧
    requireAuth none = .error 401 ∧
    (∀ u, requireAuth (some u) = .ok ()) ∧
    (∀ roles, requireRole roles none = .error 403) := by
  unfold authMiddleware
  cases hs : sessionAuth db sessionUserId with
  | some u => simp [requireAuth, requireRole]
  | none =>
      cases hb : bearerAuth compare db authHeader with
      | some u => simp [requireAuth, requireRole]
      | none => simp [requireAuth, requireRole]

/-- C10 witness: with no session and no Authorization header the
middleware still calls `next()` and attaches no user. -/
theorem claim10_authMiddleware_always_next_witness :
    (authMiddleware (fun s t => s = t) [] none none).calledNext = true ∧
    (authMiddleware (fun s t => s = t) [] none none).user = none :=
  ⟨(claim10_authMiddleware_always_next (fun s t => decide (s = t)) [] none none).1,
    (claim10_authMiddleware_always_next (fun s t => decide (s = t)) [] none none).2.1.mpr
      ⟨by decide, by decide⟩⟩

/-- C7: the status derivation is "absent" exactly without a check-in,
"present" exactly with a check-in and no check-out, "completed" exactly
with both; the three cases are exhaustive and mutually exclusive. -/
theorem claim7_status_derivation (r : WorkerRecord) :
    (determineStatus r = "absent" ↔ r.checkIn = none) ∧
    (determineStatus r = "present" ↔ r.checkIn ≠ none ∧ r.checkOut = none) ∧
    (determineStatus r = "completed" ↔ r.checkIn ≠ none ∧ r.checkOut ≠ none) := by
  obtain ⟨ci, co⟩ := r
  cases ci <;> cases co <;> simp [determineStatus]

/-- C7 witness: a record with neither stamp is "absent". -/
theorem claim7_status_derivation_witness :
    determineStatus ⟨none, none⟩ = "absent" :=
  (claim7_status_derivation ⟨none, none⟩).1.mpr rfl

/-- C1 witness: concrete instances of the amended claim — the worker's
value is within 1/200 hour of the exact difference, and the midnight
update writes zero working hours. -/
theorem claim1_amended_workhours_witness :
    |calculateWorkHours (some 0) (some 3600000) -
        (((3600000 : ℤ) : ℚ) - ((0 : ℤ) : ℚ)) / (1000 * 60 * 60)| ≤ 1 / 200 ∧
    (autoCheckoutSet (yesterdayEnd ⟨1, 0, 0, 0, 0⟩)
      ⟨1, 7, some ⟨0, 9, 0, 0, 0⟩, none, none, none, 0, 0, "present", none⟩).workingHours
      = 0 :=
  ⟨(claim1_amended_workhours 0 3600000 ⟨1, 0, 0, 0, 0⟩
      ⟨1, 7, some ⟨0, 9, 0, 0, 0⟩, none, none, none, 0, 0, "present", none⟩).2.1,
    (claim1_amended_workhours 0 3600000 ⟨1, 0, 0, 0, 0⟩
      ⟨1, 7, some ⟨0, 9, 0, 0, 0⟩, none, none, none, 0, 0, "present", none⟩).2.2.1⟩

/-- C2 witness: a client-supplied status of "approved" is still stored
as "pending". -/
theorem claim2_leave_created_pending_witness :
    (createLeaveRequestRoute
      ⟨"annual", 0, 1, "vacation", some "approved"⟩ 7 99).status = "pending" :=
  claim2_leave_created_pending ⟨"annual", 0, 1, "vacation", some "approved"⟩ 7 99

/-- C6 witness: a single valid allocation is submitted; an over-allocated
one is not. -/
theorem claim6_time_allocation_validation_witness :
    saveAllocations 8 [⟨1, 4, "dev"⟩] = some [⟨1, 4, "dev"⟩] ∧
    saveAllocations 8 [⟨1, 9, "dev"⟩] = none :=
  ⟨(claim6_time_allocation_validation 8 [⟨1, 4, "dev"⟩]).1.mpr
      ⟨by decide, by decide⟩,
    (claim6_time_allocation_validation 8 [⟨1, 9, "dev"⟩]).2.mpr
      (by decide)⟩

end HR
